import Mathlib

/-!
Verification of the JWT authentication core of the `fastify` utility package:
token codec (`src/lib/jwt/core.ts`), JWT service (`src/lib/jwt/service.ts`),
request verification hook (`src/lib/jwt/hooks.ts`) and secret parsing
(`parseJwtSecrets`).  TypeScript values are modelled shallowly: JS strings as
`String`, records as structures/association lists, `undefined` as `Option`,
thrown exceptions as `Except`.
-/

namespace Fastify

instance {ε α : Type} [DecidableEq ε] [DecidableEq α] : DecidableEq (Except ε α) := fun x y =>
  match x, y with
  | .ok a, .ok b =>
    if h : a = b then .isTrue (by rw [h]) else .isFalse (by intro hc; injection hc; contradiction)
  | .error a, .error b =>
    if h : a = b then .isTrue (by rw [h]) else .isFalse (by intro hc; injection hc; contradiction)
  | .ok _, .error _ => .isFalse (by intro hc; injection hc)
  | .error _, .ok _ => .isFalse (by intro hc; injection hc)

/-- The whitespace class of the JavaScript regexp `\s` and of `String.trim`,
restricted to the ASCII range (space, tab, LF, VT, FF, CR). -/
def jsWhitespace (c : Char) : Bool :=
  c.toNat = 32 || c.toNat = 9 || c.toNat = 10 || c.toNat = 11 || c.toNat = 12 || c.toNat = 13

/-- Remove the trailing whitespace run of a character list. -/
def rtrimChars : List Char → List Char
  | [] => []
  | a :: rest =>
    let r := rtrimChars rest
    if r.isEmpty && jsWhitespace a then [] else a :: r

/-- Remove leading and trailing whitespace from a character list
(JS `String.prototype.trim`). -/
def trimList (l : List Char) : List Char :=
  rtrimChars (l.dropWhile jsWhitespace)

/-- JS `String.prototype.trim` on strings. -/
def jsTrim (s : String) : String :=
  String.mk (trimList s.toList)

/-- Insertion-order deduplication, keeping the first occurrence of each
element: the semantics of JS `[...new Set(l)]` (a `Set` is populated by
iterating the list and ignoring elements already present). -/
def dedupFirst (l : List String) : List String :=
  l.foldl (fun acc a => if a ∈ acc then acc else acc ++ [a]) []

/-- Split a character list at every occurrence of `sep`
(JS `String.prototype.split` with a one-character separator:
`"" → [""]`, separators at the ends produce empty segments). -/
def splitChars (sep : Char) : List Char → List (List Char)
  | [] => [[]]
  | a :: rest =>
    if a = sep then [] :: splitChars sep rest
    else
      match splitChars sep rest with
      | h :: t => (a :: h) :: t
      | [] => [[a]]

/-- JS `s.split(sep)` for a one-character separator. -/
def jsSplit (s : String) (sep : Char) : List String :=
  (splitChars sep s.toList).map String.mk

/-- JS `String.prototype.toLowerCase` (character-wise lowering). -/
def jsToLower (s : String) : String :=
  String.mk (s.toList.map Char.toLower)

/-- The first element of a string list, with `""` standing for the JS
`undefined` obtained by indexing an empty array (`l[0]`). -/
def headOrEmpty : List String → String
  | [] => ""
  | a :: _ => a

/-! ## Header extraction (`src/lib/jwt/core.ts`, `extractTokenFromHeader`) -/

/-- A header value as Fastify delivers it: a single string or a string array
(`string | string[]`); `Option` around it models `undefined`. -/
inductive HeaderValue where
  | str (s : String)
  | arr (l : List String)
  deriving DecidableEq, Repr

/-- The regexp `/^Bearer\s+(\S+)$/i` of `extractTokenFromHeader`: a
case-insensitive `Bearer`, one or more whitespace characters, then the
captured token — one or more non-whitespace characters reaching the end of
the string.  Returns the capture group. -/
def matchBearer (value : String) : Option String :=
  let cs := value.toList
  let pre := cs.take 6
  let rest := cs.drop 6
  let ws := rest.takeWhile jsWhitespace
  let tok := rest.dropWhile jsWhitespace
  if pre.length = 6
      && (List.zip pre ['b', 'e', 'a', 'r', 'e', 'r']).all (fun p => p.1.toLower = p.2)
      && !ws.isEmpty && !tok.isEmpty
      && tok.all (fun c => !jsWhitespace c) then
    some (String.mk tok)
  else
    none

/-- The trailing part of `extractTokenFromHeader` once the JS truthiness
checks have selected a candidate string `value` (empty models the falsy
`undefined`/`""` cases): apply the Bearer pattern; on a non-match return
`null` in non-debug mode and throw a diagnostic error in debug mode. -/
def extractCore (value : String) (headerName : String) (debug : Bool) :
    Except String (Option String) :=
  if value = "" then .ok none
  else
    match matchBearer value with
    | some tok => .ok (some tok)
    | none =>
      if debug then
        .error ("Invalid " ++ headerName ++ " header format. Expected: \"Bearer <token>\"")
      else
        .ok none

/-- `extractTokenFromHeader` (core.ts 215–239).  `!headerValue` is false for
any array (even `[]`) but true for `undefined` and `""`; for an array the
candidate is `headerValue[0]` (with `undefined` when the array is empty),
then `!value` returns `null` for a missing or empty candidate. -/
def extractTokenFromHeader (headerValue : Option HeaderValue)
    (headerName : String) (debug : Bool) : Except String (Option String) :=
  match headerValue with
  | none => .ok none
  | some (.str s) => extractCore s headerName debug
  | some (.arr l) => extractCore (headOrEmpty l) headerName debug

/-! ## Token verification pipeline (`src/lib/jwt/core.ts`, `verifyToken`)

The decoded JWT header and payload are modelled as tagged structures with
well-known fields plus a generic side-map for extension claims.  Claim values
are modelled as strings (the configurations the engine compares are string
claims; comparison is JS strict equality). -/

/-- A decoded JWT header (`{ alg, kid, typ?, cty?, ...extra }`). -/
structure JwtHeader where
  alg : String
  kid : Option String
  typ : Option String
  cty : Option String
  extra : List (String × String)
  deriving DecidableEq, Repr

/-- A decoded JWT payload: user claims plus the standard `exp`/`iss`/`aud`
claims maintained by the codec. -/
structure JwtPayload where
  claims : List (String × String)
  exp : Option Nat
  iss : Option String
  aud : Option String
  deriving DecidableEq, Repr

/-- The `header` / `expectedHeader` configuration object of
`SignTokenOptions` / `VerifyTokenOptions`: optional `typ`/`cty` plus custom
header claims. -/
structure HeaderClaims where
  typ : Option String
  cty : Option String
  extra : List (String × String)
  deriving DecidableEq, Repr

/-- Where in the `verifyToken` pipeline an error was raised.  The spec's
`MalformedToken` covers both `malformedStructure` (the three-segment check)
and `malformedHeader` (base64/JSON decoding of the first segment);
`invalidToken` is the mapping of jsonwebtoken's `JsonWebTokenError`
(invalid signature and related failures). -/
inductive JwtErrorKind where
  | malformedStructure
  | malformedHeader
  | missingKid
  | headerMismatch (field : String)
  | unknownKid (kid : String)
  | tokenExpired
  | invalidToken
  | missingIssuer
  | issuerNotAllowed (iss : String)
  | invalidPayload
  | unknownTokenType (name : String)
  | missingDefaultSecret
  deriving DecidableEq, Repr

/-- A typed error: the kind identifies the raise site, `msg` is the
human-readable `Error` message (debug dependent). -/
structure JwtError where
  kind : JwtErrorKind
  msg : String
  deriving DecidableEq, Repr

/-- `VerifyTokenOptions` (core.ts 14–22); `allowedIss = []` models an absent
list (the code guards with `allowedIss && allowedIss.length > 0`). -/
structure VerifyTokenOptions where
  allowedIss : List String
  debug : Bool
  expectedHeader : Option HeaderClaims
  deriving DecidableEq, Repr

/-- The outcome of the external `jwt.verify(token, secret)` call: a decoded
payload, a `TokenExpiredError` (carrying the expiry timestamp), or a
`JsonWebTokenError` (carrying its message, e.g. `"invalid signature"`). -/
inductive JwtVerifyResult where
  | ok (payload : JwtPayload)
  | expired (expiredAt : Nat)
  | jwtError (msg : String)
  deriving DecidableEq, Repr

/-- Worker of `containsSub`: does `p` occur as a contiguous run in the
list? -/
def containsSubGo (p : List Char) : List Char → Bool
  | [] => p.isEmpty
  | c :: rest => p.isPrefixOf (c :: rest) || containsSubGo p rest

/-- Substring test (`String.prototype.includes`) used by the debug branch of
the `JsonWebTokenError` handler. -/
def containsSub (s pat : String) : Bool :=
  containsSubGo pat.toList s.toList

/-- Render `x || 'undefined'` for an optional header field (JS `||` picks the
fallback for `undefined` and for the empty string). -/
def orUndefined (v : Option String) : String :=
  match v with
  | some s => if s = "" then "undefined" else s
  | none => "undefined"

/-- Look a field up in the generic side-map of a decoded header (the custom
header claims outside `typ`/`cty`). -/
def headerField (h : JwtHeader) (k : String) : Option String :=
  List.lookup k h.extra

/-- Custom-header-claim validation (core.ts 131–142): check each entry of
the expected header object, skipping the `typ`/`cty` keys, against the
decoded header, in order; return the first mismatch. -/
def checkExtraClaims (h : JwtHeader) : List (String × String) → Option (String × String × String)
  | [] => none
  | (k, v) :: rest =>
    if k = "typ" || k = "cty" then checkExtraClaims h rest
    else if headerField h k = some v then checkExtraClaims h rest
    else some (k, v, orUndefined (headerField h k))

/-- The `cty` check of core.ts 122–129, falling through to the custom
claims. -/
def checkCtyClaim (h : JwtHeader) (eh : HeaderClaims) : Option (String × String × String) :=
  match eh.cty with
  | some e =>
    if h.cty = some e then checkExtraClaims h eh.extra
    else some ("cty", e, orUndefined h.cty)
  | none => checkExtraClaims h eh.extra

/-- Expected-header validation (core.ts 112–143): check `typ`, then `cty`,
then each custom entry against the decoded header, in order.  Returns the
first mismatch as (field, expected value, rendered actual value). -/
def checkHeaderClaims (h : JwtHeader) (eh : HeaderClaims) :
    Option (String × String × String) :=
  match eh.typ with
  | some e =>
    if h.typ = some e then checkCtyClaim h eh else some ("typ", e, orUndefined h.typ)
  | none => checkCtyClaim h eh

/-- The message of a header-claim mismatch error (core.ts 115–119 etc.). -/
def headerMismatchMsg (debug : Bool) (field expected got : String) : String :=
  if debug then
    "Invalid JWT header '" ++ field ++ "': expected \"" ++ expected ++ "\", got \"" ++ got ++ "\""
  else
    "Invalid JWT header " ++ field

/-- Map the outcome of `jwt.verify` through the `catch` block of
`verifyToken` (core.ts 182–208): `TokenExpiredError` and `JsonWebTokenError`
are rewrapped (the debug expiry message renders timestamps, elided here to
the numeric value). -/
def mapJwtLibError (debug : Bool) : JwtVerifyResult → Except JwtError JwtPayload
  | .ok p => .ok p
  | .expired at_ =>
    if debug then
      .error ⟨.tokenExpired, "Token expired at " ++ toString at_⟩
    else
      .error ⟨.tokenExpired, "Token has expired"⟩
  | .jwtError m =>
    if debug then
      if containsSub m "signature" then
        .error ⟨.invalidToken,
          "Invalid token signature: Token was signed with a different secret or has been tampered with"⟩
      else if containsSub m "malformed" then
        .error ⟨.invalidToken, "Malformed token: Token structure is invalid or corrupted"⟩
      else
        .error ⟨.invalidToken, "Token verification failed: " ++ m⟩
    else
      .error ⟨.invalidToken, "Invalid token"⟩

/-- The message of the missing-kid error (core.ts 104–108). -/
def missingKidMsg (debug : Bool) : String :=
  if debug then
    "Missing kid in JWT token header. Ensure the token was signed with a kid parameter."
  else
    "Missing kid in token header"

/-- The message of the unknown-key-id error (core.ts 147–152). -/
def unknownKidMsg (debug : Bool) (kid : String) (secrets : List (String × String)) : String :=
  if debug then
    "Unknown key ID \"" ++ kid ++ "\" in JWT token. Available keys: "
      ++ String.intercalate ", " (secrets.map Prod.fst)
  else
    "Unknown key ID \"" ++ kid ++ "\""

/-- The message of the missing-issuer error (core.ts 166–170). -/
def missingIssuerMsg (debug : Bool) (allowed : List String) : String :=
  if debug then
    "Token missing issuer (iss) claim. Expected one of: " ++ String.intercalate ", " allowed
  else
    "Token missing issuer claim"

/-- The message of the disallowed-issuer error (core.ts 173–177). -/
def badIssuerMsg (debug : Bool) (i : String) (allowed : List String) : String :=
  if debug then
    "Invalid token issuer \"" ++ i ++ "\". Expected one of: " ++ String.intercalate ", " allowed
  else
    "Invalid token issuer \"" ++ i ++ "\""

/-- The verification pipeline from the point where the header has been
decoded (core.ts 102–207): kid presence, expected header claims, secret
lookup by kid, the `jwt.verify` call (`verifySig`, applied to the selected
secret), and issuer validation.  JS falsy checks (`!kid`, `!secret`,
`!tokenIss`) treat the empty string like absence. -/
def verifyDecoded (header : JwtHeader) (secrets : List (String × String))
    (opts : VerifyTokenOptions) (verifySig : String → JwtVerifyResult) :
    Except JwtError JwtPayload :=
  match header.kid with
  | none => .error ⟨.missingKid, missingKidMsg opts.debug⟩
  | some kid =>
    if kid = "" then .error ⟨.missingKid, missingKidMsg opts.debug⟩
    else
      match (match opts.expectedHeader with
             | some eh => checkHeaderClaims header eh
             | none => none) with
      | some (f, e, g) => .error ⟨.headerMismatch f, headerMismatchMsg opts.debug f e g⟩
      | none =>
        match List.lookup kid secrets with
        | none => .error ⟨.unknownKid kid, unknownKidMsg opts.debug kid secrets⟩
        | some secret =>
          if secret = "" then .error ⟨.unknownKid kid, unknownKidMsg opts.debug kid secrets⟩
          else
            match mapJwtLibError opts.debug (verifySig secret) with
            | .error e => .error e
            | .ok decoded =>
              if !opts.allowedIss.isEmpty then
                match decoded.iss with
                | none => .error ⟨.missingIssuer, missingIssuerMsg opts.debug opts.allowedIss⟩
                | some i =>
                  if i = "" then .error ⟨.missingIssuer, missingIssuerMsg opts.debug opts.allowedIss⟩
                  else if i ∈ opts.allowedIss then .ok decoded
                  else .error ⟨.issuerNotAllowed i, badIssuerMsg opts.debug i opts.allowedIss⟩
              else
                .ok decoded

/-- The message of the structural `Malformed token` error (core.ts 91). -/
def malformedMsg (debug : Bool) : String :=
  if debug then "Malformed JWT token: Token must have 3 parts separated by dots"
  else "Malformed token"

/-- The message of the header-decoding `Malformed token` error (core.ts 99). -/
def malformedHeaderDecodeMsg (debug : Bool) : String :=
  if debug then "Malformed JWT token: Invalid base64 encoding in header"
  else "Malformed token"

/-- `verifyToken` (core.ts 80–208) on the raw token string.  The two
external primitives are parameters: `decodeHeader` models
`JSON.parse(Buffer.from(headerPart, 'base64'))` (returning `none` when it
throws), and `jwtVerify` models `jwt.verify(token, secret)`.  The structural
check rejects when the dot-split does not have exactly three parts or the
first part is empty (`parts.length !== 3 || !parts[0]`). -/
def verifyToken (decodeHeader : String → Option JwtHeader)
    (jwtVerify : String → String → JwtVerifyResult) (token : String)
    (secrets : List (String × String)) (opts : VerifyTokenOptions) :
    Except JwtError JwtPayload :=
  let parts := jsSplit token '.'
  if parts.length ≠ 3 ∨ headOrEmpty parts = "" then
    .error ⟨.malformedStructure, malformedMsg opts.debug⟩
  else
    match decodeHeader (headOrEmpty parts) with
    | none => .error ⟨.malformedHeader, malformedHeaderDecodeMsg opts.debug⟩
    | some header => verifyDecoded header secrets opts (fun secret => jwtVerify token secret)

/-- The error kind of a pipeline outcome (`none` on success). -/
def errorKind {α : Type} : Except JwtError α → Option JwtErrorKind
  | .error e => some e.kind
  | .ok _ => none

/-- Forget the human-readable message, keeping the outcome and the error
kind. -/
def stripMsg {α : Type} : Except JwtError α → Except JwtErrorKind α
  | .error e => .error e.kind
  | .ok a => .ok a

/-! ## Token signing (`src/lib/jwt/core.ts`, `signToken`)

The repository delegates serialization and MAC computation to the external
`jsonwebtoken` library (`jwt.sign`/`jwt.verify`), whose code is not part of
this repository.  Tokens are therefore modelled in decoded form: a
`SignedToken` holds the header, the payload and the signature value, and the
base64url/JSON wire serialization is abstracted away.  Where the model has
to fill in behaviour of `jwt.sign`/`jwt.verify` it follows the
specification's Token Codec description (§4.1). -/

/-- A signed token in decoded form (`header.payload.signature` with the
serialization abstracted).  `sig` is the MAC value over header and
payload. -/
structure SignedToken where
  header : JwtHeader
  payload : JwtPayload
  sig : Nat
  deriving DecidableEq, Repr

/-- `SignTokenOptions` (core.ts 3–12). -/
structure SignTokenOptions where
  algorithm : Option String
  iss : Option String
  aud : Option String
  header : Option HeaderClaims
  deriving DecidableEq, Repr

/-- A simple executable rolling hash of a string, standing in for the HMAC
primitive.  Only recomputability matters for the properties proved here. -/
def strHash (s : String) : Nat :=
  s.toList.foldl (fun a c => a * 131 + c.toNat + 1) 7

/-- Render an optional string into the MAC input. -/
def encOpt (v : Option String) : String :=
  match v with
  | some s => "s:" ++ s
  | none => "n"

/-- Serialize a claim side-map into the MAC input. -/
def encPairs (l : List (String × String)) : String :=
  String.intercalate ";" (l.map (fun kv => kv.1 ++ ":" ++ kv.2))

/-- Modelled from the spec: the MAC of §4.1 ("a signature over
header+payload using `secret` and `algorithm`"), computed by the external
`jsonwebtoken` primitive.  A concrete recomputable function. -/
def macModel (secret : String) (h : JwtHeader) (p : JwtPayload) : Nat :=
  strHash (secret ++ "#" ++ h.alg ++ "#" ++ encOpt h.kid ++ "#" ++ encOpt h.typ ++ "#"
    ++ encOpt h.cty ++ "#" ++ encPairs h.extra ++ "#" ++ encPairs p.claims ++ "#"
    ++ (match p.exp with | some e => toString e | none => "-") ++ "#" ++ encOpt p.iss
    ++ "#" ++ encOpt p.aud)

/-- JS falsy guard on an optional string option value (`if (options?.x)`):
the empty string behaves like absence. -/
def jsOptStr (v : Option String) : Option String :=
  match v with
  | some s => if s = "" then none else some s
  | none => none

/-- `signToken` (core.ts 27–75): assemble the `SignOptions` (algorithm,
issuer, audience under JS truthiness; the custom header configuration with
`typ`, `cty` and the remaining entries) and sign.  The final `jwt.sign` call
is modelled from the spec (§4.1 Sign): the header carries `alg` (default
`HS256`), `kid`, and the configured `typ`/`cty`/custom claims; the payload
gains the absolute expiry `now + expiresIn` and the configured
issuer/audience; the signature is the MAC under `secret`.  `expiresIn` is
modelled as a duration in seconds (the source's duration string, parsed by
the external library). -/
def signToken (payload : List (String × String)) (secret : String) (kid : String)
    (expiresIn : Nat) (now : Nat) (options : Option SignTokenOptions) : SignedToken :=
  let alg := jsOptStr (options.bind (·.algorithm))
  let iss := jsOptStr (options.bind (·.iss))
  let aud := jsOptStr (options.bind (·.aud))
  let hdrCfg := options.bind (·.header)
  let hdr : JwtHeader := {
    alg := alg.getD "HS256"
    kid := some kid
    typ := hdrCfg.bind (·.typ)
    cty := hdrCfg.bind (·.cty)
    extra := (hdrCfg.map (·.extra)).getD [] |>.filter (fun kv => kv.1 ≠ "typ" ∧ kv.1 ≠ "cty") }
  let pl : JwtPayload := {
    claims := payload
    exp := some (now + expiresIn)
    iss := iss
    aud := aud }
  { header := hdr, payload := pl, sig := macModel secret hdr pl }

/-- Modelled from the spec: the external `jwt.verify(token, secret)` (§4.1
step 6) — recompute the signature and compare, then check the expiry claim
against the current time (jsonwebtoken raises `TokenExpiredError` when
`exp <= now`). -/
def jwtVerifyModel (t : SignedToken) (secret : String) (now : Nat) : JwtVerifyResult :=
  if t.sig ≠ macModel secret t.header t.payload then
    .jwtError "invalid signature"
  else
    match t.payload.exp with
    | some e => if e ≤ now then .expired e else .ok t.payload
    | none => .ok t.payload

/-! ## JWT service (`src/lib/jwt/service.ts`, `FastifyJwtService`) -/

/-- `TokenTypeConfig` (types.ts): per-type header name, expiry, signing
options, issuer allow-list and payload schema.  The Zod `payloadSchema` is
modelled as a boolean validator (`parse` succeeds or throws). -/
structure TokenTypeConfig where
  headerName : String
  expiresIn : Nat
  algorithm : Option String := none
  iss : Option String := none
  aud : Option String := none
  allowedIss : List String := []
  header : Option HeaderClaims := none
  payloadSchema : Option (JwtPayload → Bool) := none

/-- `FastifyJwtService` (service.ts 1122–1133): immutable secrets map,
default key id, token type registry and debug flag. -/
structure FastifyJwtService where
  secrets : List (String × String)
  defaultKeyId : String
  tokenTypes : List (String × TokenTypeConfig)
  debug : Bool

/-- `getTokenTypeConfig` (service.ts 1223–1225). -/
def FastifyJwtService.getTokenTypeConfig (svc : FastifyJwtService) (typeName : String) :
    Option TokenTypeConfig :=
  List.lookup typeName svc.tokenTypes

/-- `getTokenTypeNames` (service.ts 1230–1232). -/
def FastifyJwtService.getTokenTypeNames (svc : FastifyJwtService) : List String :=
  svc.tokenTypes.map Prod.fst

/-- The unknown-token-type message shared by the service methods. -/
def unknownTypeMsg (svc : FastifyJwtService) (typeName : String) : String :=
  if svc.debug then
    "Unknown token type \"" ++ typeName ++ "\". Available types: "
      ++ String.intercalate ", " svc.getTokenTypeNames
  else
    "Unknown token type \"" ++ typeName ++ "\""

/-- `generateToken` (service.ts 1138–1160): look the type up, build
`SignTokenOptions` from its configuration (JS truthiness guards), fetch the
default secret (defensive re-check) and sign at time `now`. -/
def FastifyJwtService.generateToken (svc : FastifyJwtService) (typeName : String)
    (payload : List (String × String)) (now : Nat) : Except JwtError SignedToken :=
  match List.lookup typeName svc.tokenTypes with
  | none => .error ⟨.unknownTokenType typeName, unknownTypeMsg svc typeName⟩
  | some tokenType =>
    let signOptions : SignTokenOptions := {
      algorithm := jsOptStr tokenType.algorithm
      iss := jsOptStr tokenType.iss
      aud := jsOptStr tokenType.aud
      header := tokenType.header }
    match List.lookup svc.defaultKeyId svc.secrets with
    | none =>
      .error ⟨.missingDefaultSecret,
        "Default key ID \"" ++ svc.defaultKeyId ++ "\" not found in secrets"⟩
    | some secret =>
      if secret = "" then
        .error ⟨.missingDefaultSecret,
          "Default key ID \"" ++ svc.defaultKeyId ++ "\" not found in secrets"⟩
      else
        .ok (signToken payload secret svc.defaultKeyId tokenType.expiresIn now
          (some signOptions))

/-- `verifyToken` (service.ts 1165–1202) on a decoded token: look the type
up, build `VerifyTokenOptions` (allow-list only when non-empty, expected
header claims from the type's header configuration), run the verification
pipeline with the modelled `jwt.verify`, then validate the payload schema
(`InvalidPayloadShape` surfaced distinctly). -/
def FastifyJwtService.verifyToken (svc : FastifyJwtService) (typeName : String)
    (t : SignedToken) (now : Nat) : Except JwtError JwtPayload :=
  match List.lookup typeName svc.tokenTypes with
  | none => .error ⟨.unknownTokenType typeName, unknownTypeMsg svc typeName⟩
  | some tokenType =>
    let verifyOptions : VerifyTokenOptions := {
      allowedIss := tokenType.allowedIss
      debug := svc.debug
      expectedHeader := tokenType.header }
    match verifyDecoded t.header svc.secrets verifyOptions
        (fun secret => jwtVerifyModel t secret now) with
    | .error e => .error e
    | .ok decoded =>
      match tokenType.payloadSchema with
      | none => .ok decoded
      | some schema =>
        if schema decoded then .ok decoded
        else
          .error ⟨.invalidPayload,
            if svc.debug then "Token payload validation failed: schema mismatch"
            else "Invalid token payload"⟩

/-- The service-level `extractTokenFromHeader` (service.ts 1207–1218):
look the type up and delegate to the codec extraction with the type's
header name and the service debug flag. -/
def FastifyJwtService.extractToken (svc : FastifyJwtService) (headerValue : Option HeaderValue)
    (typeName : String) : Except String (Option String) :=
  match List.lookup typeName svc.tokenTypes with
  | none => .error (unknownTypeMsg svc typeName)
  | some tokenType => extractTokenFromHeader headerValue tokenType.headerName svc.debug

/-- `generateToken` then `verifyToken` of the same type at the same
instant: the round-trip composition of the spec's §8. -/
def roundTripRun (svc : FastifyJwtService) (typeName : String)
    (payload : List (String × String)) (now : Nat) : Except JwtError JwtPayload :=
  match svc.generateToken typeName payload now with
  | .error e => .error e
  | .ok t => svc.verifyToken typeName t now

/-! ## Secret parsing (`parseJwtSecrets`) -/

/-- The key id of a `key=secret` pair segment: trim the segment, take up to
the first `=`, trim again (`trimmedPair.substring(0, separatorIndex).trim()`). -/
def pairKeyId (pair : String) : String :=
  String.mk (trimList ((trimList pair.toList).takeWhile (fun c => c ≠ '=')))

/-- The secret of a `key=secret` pair segment: trim the segment, drop
through the first `=`, trim again
(`trimmedPair.substring(separatorIndex + 1).trim()`). -/
def pairSecret (pair : String) : String :=
  String.mk (trimList (((trimList pair.toList).dropWhile (fun c => c ≠ '=')).drop 1))

/-- One iteration of the `parseJwtSecrets` loop (part_001 19–46) over the
accumulated map: skip segments that are empty after trimming, reject a
segment without `=`, an empty key id, an empty secret, or a key id whose
accumulated entry is truthy (a duplicate — stored secrets are never empty,
so `if (secrets[keyId])` fires exactly on repeats), else append the
entry. -/
def processPair (acc : List (String × String)) (pair : String) :
    Except String (List (String × String)) :=
  if trimList pair.toList = [] then .ok acc
  else if '=' ∉ trimList pair.toList then
    .error ("Invalid JWT secret format: \"" ++ pair ++ "\". Expected format: key=secret")
  else if pairKeyId pair = "" then
    .error ("Empty key ID in JWT secret pair: \"" ++ pair ++ "\"")
  else if pairSecret pair = "" then
    .error ("Empty secret for key ID \"" ++ pairKeyId pair ++ "\"")
  else if (List.lookup (pairKeyId pair) acc).getD "" ≠ "" then
    .error ("Duplicate key ID \"" ++ pairKeyId pair ++ "\" in JWT secrets")
  else .ok (acc ++ [(pairKeyId pair, pairSecret pair)])

/-- The `parseJwtSecrets` loop over all pair segments. -/
def processPairs (acc : List (String × String)) :
    List String → Except String (List (String × String))
  | [] => .ok acc
  | p :: rest =>
    match processPair acc p with
    | .error e => .error e
    | .ok acc' => processPairs acc' rest

/-- `parseJwtSecrets` (part_001 7–53): reject a blank input, split on `|`,
process every pair segment, and reject an empty result map. -/
def parseJwtSecrets (secretsString : String) : Except String (List (String × String)) :=
  if jsTrim secretsString = "" then .error "JWT secrets string cannot be empty"
  else if (jsSplit secretsString '|').isEmpty then
    .error "JWT secrets string must contain at least one key=secret pair"
  else
    match processPairs [] (jsSplit secretsString '|') with
    | .error e => .error e
    | .ok secrets =>
      if secrets.isEmpty then
        .error "JWT secrets string must contain at least one valid key=secret pair"
      else .ok secrets

/-! ## Request verification hook (`src/lib/jwt/hooks.ts`, `createVerificationHook`)

The hook body after the Swagger-prefix skip.  The JWT service's
`verifyToken` is a parameter (`verify`, keyed by type name and the raw
token string) since the hook treats it as a black box behind `try/catch`;
extraction uses the codec model above. -/

/-- The route's `jwtTypes` declaration: `false` (disabled), absent, or a
type-name array. -/
inductive RouteJwtTypes where
  | disabled
  | unset
  | types (l : List String)
  deriving DecidableEq, Repr

/-- The type-list resolution of hooks.ts 29–46: start from the global
`requiredTypes` and, when the route declares a non-empty array, combine and
deduplicate via `[...new Set([...typesToVerify, ...jwtTypes])]`; a disabled
route resolves to nothing. -/
def resolveTypes (requiredTypes : List String) (route : RouteJwtTypes) : List String :=
  match route with
  | .disabled => []
  | .unset => requiredTypes
  | .types l => if l.isEmpty then requiredTypes else dedupFirst (requiredTypes ++ l)

/-- The per-request environment the hook reads: the token type registry of
the service, the request headers (keyed by lower-cased header name), the
service verification function and the debug flag. -/
structure HookEnv where
  registry : List (String × TokenTypeConfig)
  headers : String → Option HeaderValue
  verify : String → String → Except JwtError JwtPayload
  debug : Bool

/-- A reply sent by the hook: `reply.status(status).send(formatError(status,
error, message))`. -/
structure HookReject where
  status : Nat
  error : String
  message : String
  deriving DecidableEq, Repr

/-- The hook's outcome for one request: fall through to the route handler,
or reject with an error reply. -/
inductive HookOutcome where
  | proceed
  | reject (r : HookReject)
  deriving DecidableEq, Repr

/-- The observable result of running the hook: the outcome, the final state
of `request.jwtPayloads` (`none` when the map was never created), and the
list of type names whose loop iteration was entered, in order. -/
structure HookResult where
  outcome : HookOutcome
  payloads : Option (List (String × JwtPayload))
  evaluated : List String

/-- The hook's unknown-token-type message (hooks.ts 55–57). -/
def unknownTypeHookMsg (env : HookEnv) (typeName : String) : String :=
  if env.debug then
    "Unknown token type \"" ++ typeName ++ "\" in route configuration. Available types: "
      ++ String.intercalate ", " (env.registry.map Prod.fst)
  else "Unknown token type \"" ++ typeName ++ "\""

/-- One iteration of the hook's verification loop (hooks.ts 52–91) for one
type name: unknown type → 500 Internal Server Error; extraction throw → 401;
missing token → 401; verification throw → 401; else the verified payload. -/
def evalType (env : HookEnv) (typeName : String) : Except HookReject JwtPayload :=
  match List.lookup typeName env.registry with
  | none => .error ⟨500, "Internal Server Error", unknownTypeHookMsg env typeName⟩
  | some tokenTypeConfig =>
    let headerName := jsToLower tokenTypeConfig.headerName
    let headerValue := env.headers headerName
    match extractTokenFromHeader headerValue tokenTypeConfig.headerName env.debug with
    | .error em =>
      .error ⟨401, "Unauthorized",
        if env.debug then em else "Invalid " ++ headerName ++ " header format"⟩
    | .ok none =>
      .error ⟨401, "Unauthorized",
        if env.debug then
          "Missing or invalid " ++ headerName ++ " header for token type \"" ++ typeName ++ "\""
        else "Missing or invalid " ++ headerName ++ " header"⟩
    | .ok (some token) =>
      match env.verify typeName token with
      | .error e =>
        .error ⟨401, "Unauthorized",
          if env.debug then
            "Token verification failed for type \"" ++ typeName ++ "\": " ++ e.msg
          else "Invalid or expired " ++ typeName ++ " token"⟩
      | .ok payload => .ok payload

/-- `request.jwtPayloads.set(typeName, payload)`: replace an existing
entry in place, else append. -/
def setPayload (m : List (String × JwtPayload)) (k : String) (v : JwtPayload) :
    List (String × JwtPayload) :=
  if m.any (fun kv => kv.1 = k) then
    m.map (fun kv => if kv.1 = k then (k, v) else kv)
  else m ++ [(k, v)]

/-- The hook's verification loop: evaluate each resolved type in order,
accumulating payloads, returning the first rejection. -/
def hookLoop (env : HookEnv) :
    List String → List (String × JwtPayload) → List String → HookResult
  | [], acc, ev => ⟨.proceed, some acc, ev⟩
  | t :: rest, acc, ev =>
    match evalType env t with
    | .error r => ⟨.reject r, some acc, ev ++ [t]⟩
    | .ok p => hookLoop env rest (setPayload acc t p) (ev ++ [t])

/-- The verification hook (hooks.ts 12–94) after the Swagger-prefix skip:
a disabled route and an empty resolved list fall through without creating
the payload map; otherwise the map is created and the loop runs. -/
def runHook (env : HookEnv) (requiredTypes : List String) (route : RouteJwtTypes) :
    HookResult :=
  match route with
  | .disabled => ⟨.proceed, none, []⟩
  | _ =>
    let typesToVerify := resolveTypes requiredTypes route
    if typesToVerify.isEmpty then ⟨.proceed, none, []⟩
    else hookLoop env typesToVerify [] []

/-- The payload map produced by successfully evaluating a list of types in
order (failures contribute nothing). -/
def accumPayloads (env : HookEnv) (l : List String) (acc : List (String × JwtPayload)) :
    List (String × JwtPayload) :=
  l.foldl (fun a t =>
    match evalType env t with
    | .ok p => setPayload a t p
    | .error _ => a) acc

/-! ## Bookkeeping lemmas -/

/-- The `catch` mapping only yields expiry or generic-invalid errors. -/
lemma mapJwtLibError_error_kind (d : Bool) (r : JwtVerifyResult) (e : JwtError)
    (h : mapJwtLibError d r = .error e) :
    e.kind = .tokenExpired ∨ e.kind = .invalidToken := by
  cases r with
  | ok p => simp [mapJwtLibError] at h
  | expired a =>
    simp only [mapJwtLibError] at h
    split at h <;> (injection h with h'; subst h'; exact Or.inl rfl)
  | jwtError m =>
    simp only [mapJwtLibError] at h
    split at h
    · split at h
      · injection h with h'; subst h'; exact Or.inr rfl
      · split at h <;> (injection h with h'; subst h'; exact Or.inr rfl)
    · injection h with h'; subst h'; exact Or.inr rfl

/-- The decoded-header pipeline never raises a structural `MalformedToken`
error: that kind belongs exclusively to the three-segment check. -/
lemma verifyDecoded_kind_ne_structural (h : JwtHeader) (secrets : List (String × String))
    (opts : VerifyTokenOptions) (vfn : String → JwtVerifyResult) (e : JwtError)
    (he : verifyDecoded h secrets opts vfn = .error e) :
    e.kind ≠ .malformedStructure := by
  unfold verifyDecoded at he
  split at he
  · injection he with h'; subst h'; simp
  · split at he
    · injection he with h'; subst h'; simp
    · split at he
      · injection he with h'; subst h'; simp
      · split at he
        · injection he with h'; subst h'; simp
        · split at he
          · injection he with h'; subst h'; simp
          · rename_i heq
            split at he
            · rename_i hmap
              injection he with h'; subst h'
              rcases mapJwtLibError_error_kind _ _ _ hmap with hk | hk <;> simp [hk]
            · split at he
              · split at he
                · injection he with h'; subst h'; simp
                · split at he
                  · injection he with h'; subst h'; simp
                  · split at he
                    · exact absurd he (by simp)
                    · injection he with h'; subst h'; simp
              · exact absurd he (by simp)

/-! ## Claims -/

/-- **C2** (counterexample).  The token `"abc..def"` splits into exactly
three dot-separated segments of which the second is empty, so the claim
predicts a `MalformedToken` rejection at the structural first step; the
code's structural check (`parts.length !== 3 || !parts[0]`) accepts it, and
the failure only arises at the header-decoding second step. -/
theorem c2_structural_counterexample :
    (jsSplit "abc..def" '.').length = 3 ∧
    ¬ (∀ p ∈ jsSplit "abc..def" '.', p ≠ "") ∧
    errorKind (verifyToken (fun _ => none) (fun _ _ => .jwtError "boom") "abc..def" []
        ⟨[], false, none⟩) ≠ some .malformedStructure ∧
    errorKind (verifyToken (fun _ => none) (fun _ _ => .jwtError "boom") "abc..def" []
        ⟨[], false, none⟩) = some .malformedHeader := by
  refine ⟨by decide, by decide, by decide, by decide⟩

/-- **C2** (amended).  For every token string and any header
decoder/signature oracle, `verifyToken` fails with the structural
`MalformedToken` error (its first step) iff the dot-split does not have
exactly three segments or its *first* segment is empty; empty second or
third segments pass the structural check. -/
theorem c2_structural_check_iff (decodeHeader : String → Option JwtHeader)
    (jwtVerify : String → String → JwtVerifyResult) (token : String)
    (secrets : List (String × String)) (opts : VerifyTokenOptions) :
    errorKind (verifyToken decodeHeader jwtVerify token secrets opts) = some .malformedStructure
      ↔ ((jsSplit token '.').length ≠ 3 ∨ headOrEmpty (jsSplit token '.') = "") := by
  constructor
  · intro hk
    by_contra hc
    unfold verifyToken at hk
    rw [if_neg hc] at hk
    cases hd : decodeHeader (headOrEmpty (jsSplit token '.')) with
    | none => simp [hd, errorKind] at hk
    | some hdr =>
      simp only [hd] at hk
      cases hv : verifyDecoded hdr secrets opts (fun secret => jwtVerify token secret) with
      | ok p => simp [hv, errorKind] at hk
      | error e =>
        rw [hv] at hk
        simp only [errorKind, Option.some.injEq] at hk
        exact verifyDecoded_kind_ne_structural hdr secrets opts _ e hv hk
  · intro h
    unfold verifyToken
    rw [if_pos h]
    simp [errorKind]

/-- **C10** (confirmed).  For a header value supplied as a string array,
extraction inspects only the first element: a missing or empty first
element yields `null`, the Bearer pattern is applied to the first element
exactly as if it had been supplied alone, and the trailing elements are
ignored. -/
theorem c10_array_header_first_element (headerName : String) (debug : Bool) :
    (∀ l : List String, headOrEmpty l = "" →
      extractTokenFromHeader (some (.arr l)) headerName debug = .ok none) ∧
    (∀ l : List String,
      extractTokenFromHeader (some (.arr l)) headerName debug
        = extractTokenFromHeader (some (.str (headOrEmpty l))) headerName debug) ∧
    (∀ (x : String) (rest rest' : List String),
      extractTokenFromHeader (some (.arr (x :: rest))) headerName debug
        = extractTokenFromHeader (some (.arr (x :: rest'))) headerName debug) := by
  refine ⟨fun l hl => ?_, fun l => rfl, fun x rest rest' => rfl⟩
  simp [extractTokenFromHeader, hl, extractCore]

/-- **C10** witness: the two-element array is decided by its first element
only. -/
theorem c10_array_header_first_element_witness :
    (headOrEmpty ["", "Bearer t2"] = "") ∧
    extractTokenFromHeader (some (.arr ["", "Bearer t2"])) "authorization" false = .ok none :=
  ⟨rfl, (c10_array_header_first_element "authorization" false).1 ["", "Bearer t2"] rfl⟩

/-- The `catch` mapping raises the same outcome and kind with and without
diagnostics mode. -/
lemma stripMsg_mapJwtLibError (r : JwtVerifyResult) :
    stripMsg (mapJwtLibError true r) = stripMsg (mapJwtLibError false r) := by
  cases r with
  | ok p => rfl
  | expired a => rfl
  | jwtError m =>
    by_cases h1 : containsSub m "signature" <;> by_cases h2 : containsSub m "malformed" <;>
      simp [mapJwtLibError, stripMsg, h1, h2]

/-- Invert an equality of stripped outcomes. -/
lemma stripMsg_eq_cases {a b : Except JwtError JwtPayload} (h : stripMsg a = stripMsg b) :
    (∃ p, a = .ok p ∧ b = .ok p) ∨
    (∃ e e', a = .error e ∧ b = .error e' ∧ e.kind = e'.kind) := by
  cases a with
  | ok p =>
    cases b with
    | ok q => simp [stripMsg] at h; exact Or.inl ⟨p, rfl, by rw [h]⟩
    | error e => simp [stripMsg] at h
  | error e =>
    cases b with
    | ok q => simp [stripMsg] at h
    | error e' =>
      simp only [stripMsg, Except.error.injEq] at h
      exact Or.inr ⟨e, e', rfl, rfl, h⟩

/-- The decoded-token pipeline is diagnostics-invariant up to messages:
the outcome (and, on failure, the error kind) is the same with `debug` on
and off. -/
lemma stripMsg_verifyDecoded_debug (h : JwtHeader) (secrets : List (String × String))
    (al : List String) (eh : Option HeaderClaims) (vfn : String → JwtVerifyResult) :
    stripMsg (verifyDecoded h secrets ⟨al, true, eh⟩ vfn)
      = stripMsg (verifyDecoded h secrets ⟨al, false, eh⟩ vfn) := by
  unfold verifyDecoded
  cases h.kid with
  | none => rfl
  | some kid =>
    by_cases hk : kid = ""
    · simp [hk, stripMsg]
    · simp only [if_neg hk]
      cases hm : (match eh with | some x => checkHeaderClaims h x | none => none) with
      | some fg =>
        obtain ⟨f, e2, g⟩ := fg
        simp [hm, stripMsg]
      | none =>
        simp only [hm]
        cases hl : List.lookup kid secrets with
        | none => simp [stripMsg]
        | some secret =>
          simp only []
          by_cases hs : secret = ""
          · simp [hs, stripMsg]
          · simp only [if_neg hs]
            have hmap := stripMsg_mapJwtLibError (vfn secret)
            rcases stripMsg_eq_cases hmap with ⟨p, hp1, hp2⟩ | ⟨e1, e2, he1, he2, hke⟩
            · rw [hp1, hp2]
              simp only []
              by_cases hai : al.isEmpty
              · simp [hai, stripMsg]
              · simp only [hai]
                cases p.iss with
                | none => simp [stripMsg]
                | some i =>
                  by_cases hi : i = ""
                  · simp [hi, stripMsg]
                  · by_cases him : i ∈ al <;> simp [hi, him, stripMsg]
            · rw [he1, he2]
              simp [stripMsg, hke]

/-- **C3** (counterexample).  A present `authorization` value `"Token abc"`
does not match the Bearer pattern: with diagnostics off the extraction
returns absent (`null`), with diagnostics on it throws — the success/failure
outcome itself changes with the flag, not only the message text. -/
theorem c3_debug_extraction_counterexample :
    extractTokenFromHeader (some (.str "Token abc")) "authorization" false = .ok none ∧
    extractTokenFromHeader (some (.str "Token abc")) "authorization" true
      = .error "Invalid authorization header format. Expected: \"Bearer <token>\"" := by
  refine ⟨by decide, by decide⟩

/-- **C3** (amended).  Verification is diagnostics-invariant up to the
message text: `verifyToken` produces the same outcome and the same error
kind with `debug` on and off, for every token, secret store, constraint set
and decode/signature oracle.  Extraction is diagnostics-invariant except in
one case: when the candidate header value is present and fails the Bearer
pattern, non-debug mode returns absent while debug mode raises a diagnostic
error. -/
theorem c3_debug_verbosity (decodeHeader : String → Option JwtHeader)
    (jwtVerify : String → String → JwtVerifyResult) :
    (∀ (token : String) (secrets : List (String × String)) (al : List String)
        (eh : Option HeaderClaims),
      stripMsg (verifyToken decodeHeader jwtVerify token secrets ⟨al, true, eh⟩)
        = stripMsg (verifyToken decodeHeader jwtVerify token secrets ⟨al, false, eh⟩)) ∧
    (∀ (hv : Option HeaderValue) (hn : String),
      extractTokenFromHeader hv hn true = extractTokenFromHeader hv hn false ∨
      (extractTokenFromHeader hv hn false = .ok none ∧
        extractTokenFromHeader hv hn true
          = .error ("Invalid " ++ hn ++ " header format. Expected: \"Bearer <token>\""))) := by
  constructor
  · intro token secrets al eh
    unfold verifyToken
    by_cases hc : (jsSplit token '.').length ≠ 3 ∨ headOrEmpty (jsSplit token '.') = ""
    · simp [hc, stripMsg]
    · simp only [if_neg hc]
      cases hd : decodeHeader (headOrEmpty (jsSplit token '.')) with
      | none => simp [stripMsg]
      | some hdr => exact stripMsg_verifyDecoded_debug hdr secrets al eh _
  · intro hv hn
    have hcore : ∀ v : String,
        extractCore v hn true = extractCore v hn false ∨
        (extractCore v hn false = .ok none ∧
          extractCore v hn true
            = .error ("Invalid " ++ hn ++ " header format. Expected: \"Bearer <token>\"")) := by
      intro v
      unfold extractCore
      by_cases hve : v = ""
      · simp [hve]
      · simp only [if_neg hve]
        cases matchBearer v with
        | some tok => exact Or.inl rfl
        | none => exact Or.inr ⟨rfl, rfl⟩
    match hv with
    | none => exact Or.inl rfl
    | some (.str s) => exact hcore s
    | some (.arr l) => exact hcore (headOrEmpty l)

/-- **C6** (confirmed).  When the decoded header carries a (truthy) kid and
an expected header claim mismatches, the pipeline rejects with the
header-mismatch error for that claim — before the secret lookup and before
any signature verification — even when the signature oracle would also
report an invalid signature for every secret. -/
theorem c6_header_mismatch_before_signature (h : JwtHeader)
    (secrets : List (String × String)) (opts : VerifyTokenOptions)
    (vfn : String → JwtVerifyResult) (kid f e g : String) (eh : HeaderClaims)
    (hkid : h.kid = some kid) (hk : kid ≠ "")
    (heh : opts.expectedHeader = some eh)
    (hmis : checkHeaderClaims h eh = some (f, e, g))
    (hsig : ∀ s, vfn s = .jwtError "invalid signature") :
    verifyDecoded h secrets opts vfn
      = .error ⟨.headerMismatch f, headerMismatchMsg opts.debug f e g⟩ := by
  unfold verifyDecoded
  rw [hkid]
  simp [hk, heh, hmis]

/-- **C6** witness: a concrete token whose header has a kid, mismatches the
expected `env` claim, and whose signature is invalid for every secret, is
rejected with the header-mismatch error. -/
theorem c6_header_mismatch_before_signature_witness :
    verifyDecoded ⟨"HS256", some "k1", none, none, [("env", "prod")]⟩ [("k1", "s1")]
        ⟨[], false, some ⟨none, none, [("env", "staging")]⟩⟩
        (fun _ => .jwtError "invalid signature")
      = .error ⟨.headerMismatch "env", headerMismatchMsg false "env" "staging" "prod"⟩ :=
  c6_header_mismatch_before_signature _ _ _ _ "k1" "env" "staging" "prod" _
    rfl (by decide) rfl (by decide) (fun _ => rfl)

/-- The `Set`-style fold keeps the accumulator duplicate-free. -/
lemma dedupFirst_foldl_nodup (l : List String) :
    ∀ acc : List String, acc.Nodup →
      (l.foldl (fun acc a => if a ∈ acc then acc else acc ++ [a]) acc).Nodup := by
  induction l with
  | nil => intro acc h; simpa using h
  | cons a l ih =>
    intro acc h
    simp only [List.foldl_cons]
    by_cases ha : a ∈ acc
    · simp only [if_pos ha]; exact ih acc h
    · simp only [if_neg ha]
      refine ih _ (List.nodup_append.mpr ⟨h, List.nodup_singleton a, ?_⟩)
      intro x hx hxa
      simp at hxa
      exact ha (hxa ▸ hx)

/-- The `Set`-style fold preserves relative order: the result is a sublist
of the accumulator followed by the input. -/
lemma dedupFirst_foldl_sublist (l : List String) :
    ∀ acc : List String,
      List.Sublist (l.foldl (fun acc a => if a ∈ acc then acc else acc ++ [a]) acc) (acc ++ l) := by
  induction l with
  | nil => intro acc; simp
  | cons a l ih =>
    intro acc
    simp only [List.foldl_cons]
    by_cases ha : a ∈ acc
    · simp only [if_pos ha]
      exact (ih acc).trans (List.Sublist.append_left ((List.Sublist.refl l).cons a) acc)
    · simp only [if_neg ha]
      have := ih (acc ++ [a])
      rwa [List.append_assoc, List.singleton_append] at this

/-- The `Set`-style fold preserves membership. -/
lemma dedupFirst_foldl_mem (l : List String) :
    ∀ (acc : List String) (x : String),
      x ∈ l.foldl (fun acc a => if a ∈ acc then acc else acc ++ [a]) acc
        ↔ x ∈ acc ∨ x ∈ l := by
  induction l with
  | nil => intro acc x; simp
  | cons a l ih =>
    intro acc x
    simp only [List.foldl_cons]
    by_cases ha : a ∈ acc
    · simp only [if_pos ha, ih]
      constructor
      · rintro (h | h)
        · exact Or.inl h
        · exact Or.inr (List.mem_cons_of_mem a h)
      · rintro (h | h)
        · exact Or.inl h
        · rcases List.mem_cons.mp h with rfl | h
          · exact Or.inl ha
          · exact Or.inr h
    · simp only [if_neg ha, ih]
      simp [List.mem_append, List.mem_cons, or_assoc]

/-- **C4** (counterexample).  With mandatory types `["a", "a"]` and no route
declaration, the code returns the mandatory list verbatim, not its
first-seen deduplication, contradicting the claim that the resolved list is
deduplicated for every request. -/
theorem c4_resolution_counterexample :
    resolveTypes ["a", "a"] .unset = ["a", "a"] ∧
    dedupFirst (["a", "a"] ++ []) = ["a"] ∧
    (["a", "a"] : List String) ≠ ["a"] := by
  refine ⟨by decide, by decide, by decide⟩

/-- **C4** (amended).  When the route declares a non-empty type list, the
resolver returns the first-seen-order deduplication of the mandatory types
followed by the route types (duplicate-free, order-preserving, with exactly
the members of both lists); a `Disabled` route resolves to the empty list
and the hook proceeds without creating the payload map; a route with no
declaration resolves to exactly the mandatory list, taken verbatim. -/
theorem c4_type_resolution (m : List String) :
    (∀ l : List String, l ≠ [] →
      resolveTypes m (.types l) = dedupFirst (m ++ l) ∧
      (resolveTypes m (.types l)).Nodup ∧
      List.Sublist (resolveTypes m (.types l)) (m ++ l) ∧
      (∀ x, x ∈ resolveTypes m (.types l) ↔ x ∈ m ++ l)) ∧
    resolveTypes m .disabled = [] ∧
    resolveTypes m .unset = m ∧
    (∀ env : HookEnv, runHook env m .disabled = ⟨.proceed, none, []⟩) := by
  refine ⟨fun l hl => ?_, rfl, rfl, fun env => rfl⟩
  have hne : (l.isEmpty) = false := by
    cases l with
    | nil => exact absurd rfl hl
    | cons a l => rfl
  have hres : resolveTypes m (.types l) = dedupFirst (m ++ l) := by
    simp [resolveTypes, hne]
  refine ⟨hres, ?_, ?_, ?_⟩
  · rw [hres]
    exact dedupFirst_foldl_nodup (m ++ l) [] List.nodup_nil
  · rw [hres]
    unfold dedupFirst
    have h := dedupFirst_foldl_sublist (m ++ l) []
    rwa [List.nil_append] at h
  · intro x
    rw [hres]
    unfold dedupFirst
    rw [dedupFirst_foldl_mem (m ++ l) [] x]
    simp

/-- **C4** witness: mandatory `["service"]` with route declaration
`["access"]` resolves to `["service", "access"]`; the disabled and
undeclared routes behave as amended. -/
theorem c4_type_resolution_witness :
    (["access"] : List String) ≠ [] ∧
    resolveTypes ["service"] (.types ["access"]) = dedupFirst (["service"] ++ ["access"]) ∧
    dedupFirst (["service"] ++ ["access"]) = ["service", "access"] ∧
    resolveTypes ["service"] .disabled = [] ∧
    resolveTypes ["service"] .unset = ["service"] :=
  ⟨by decide, ((c4_type_resolution ["service"]).1 ["access"] (by decide)).1, by decide,
    (c4_type_resolution ["service"]).2.1, (c4_type_resolution ["service"]).2.2.1⟩

/-- When the resolved list decomposes as `pre ++ t :: post`, the hook runs
the loop on it (the route is not disabled and the list is non-empty). -/
lemma runHook_eq_hookLoop (env : HookEnv) (required : List String) (route : RouteJwtTypes)
    (pre post : List String) (t : String)
    (hroute : route ≠ RouteJwtTypes.disabled)
    (hres : resolveTypes required route = pre ++ t :: post) :
    runHook env required route = hookLoop env (pre ++ t :: post) [] [] := by
  have hne : (pre ++ t :: post).isEmpty = false := by
    cases pre <;> rfl
  cases route with
  | disabled => exact absurd rfl hroute
  | unset =>
    show (if (resolveTypes required .unset).isEmpty then _ else _) = _
    rw [hres, hne]
    simp
  | types l =>
    show (if (resolveTypes required (.types l)).isEmpty then _ else _) = _
    rw [hres, hne]
    simp

/-- Running the loop over a successful prefix, a failing type and an
arbitrary tail: the loop stops at the failing type with its rejection, the
payloads accumulated over the prefix, and exactly the prefix plus the
failing type evaluated. -/
lemma hookLoop_first_failure (env : HookEnv) (t : String) (post : List String)
    (r : HookReject) (hfail : evalType env t = .error r) :
    ∀ (pre : List String) (acc : List (String × JwtPayload)) (ev : List String),
      (∀ x ∈ pre, (evalType env x).isOk = true) →
      hookLoop env (pre ++ t :: post) acc ev
        = ⟨.reject r, some (accumPayloads env pre acc), ev ++ pre ++ [t]⟩ := by
  intro pre
  induction pre with
  | nil =>
    intro acc ev _
    simp [hookLoop, hfail, accumPayloads]
  | cons x pre ih =>
    intro acc ev hpre
    have hx := hpre x (by simp)
    obtain ⟨p, hp⟩ : ∃ p, evalType env x = .ok p := by
      cases hev : evalType env x with
      | ok p => exact ⟨p, rfl⟩
      | error e => rw [hev] at hx; simp [Except.isOk, Except.toBool] at hx
    simp only [List.cons_append, hookLoop, hp]
    rw [List.append_eq, ih (setPayload acc x p) (ev ++ [x]) (fun y hy => hpre y (by simp [hy]))]
    have hacc : accumPayloads env (x :: pre) acc = accumPayloads env pre (setPayload acc x p) := by
      simp [accumPayloads, hp]
    rw [hacc]
    simp [List.append_assoc]

/-- **C5** (confirmed).  When the resolved list is a successful prefix
followed by a failing type, the hook rejects with exactly that type's
failure, and the evaluated types are exactly the prefix plus the failing
type — nothing after the first failure is extracted or verified. -/
theorem c5_first_failure_short_circuit (env : HookEnv) (required : List String)
    (route : RouteJwtTypes) (pre post : List String) (t : String) (r : HookReject)
    (hroute : route ≠ RouteJwtTypes.disabled)
    (hres : resolveTypes required route = pre ++ t :: post)
    (hpre : ∀ x ∈ pre, (evalType env x).isOk = true)
    (hfail : evalType env t = .error r) :
    (runHook env required route).outcome = .reject r ∧
    (runHook env required route).evaluated = pre ++ [t] := by
  rw [runHook_eq_hookLoop env required route pre post t hroute hres,
    hookLoop_first_failure env t post r hfail pre [] [] hpre]
  exact ⟨rfl, by simp⟩

/-- Environment for the C5 witness: one registered type whose header is
absent, followed by a second registered type that would verify. -/
def envC5 : HookEnv := {
  registry := [("service", { headerName := "X-Service-Authorization", expiresIn := 900 }),
               ("access", { headerName := "Authorization", expiresIn := 900 })]
  headers := fun h => if h = "authorization" then some (.str "Bearer tok1") else none
  verify := fun _ _ => .ok ⟨[("sub", "u")], some 99, none, none⟩
  debug := false }

/-- **C5** witness: with resolved list `["service", "access"]` whose first
type fails for a missing header, the hook rejects with that failure and
never evaluates `"access"`. -/
theorem c5_first_failure_short_circuit_witness :
    (runHook envC5 ["service", "access"] .unset).outcome
      = .reject ⟨401, "Unauthorized", "Missing or invalid x-service-authorization header"⟩ ∧
    (runHook envC5 ["service", "access"] .unset).evaluated = [] ++ ["service"] :=
  by
    have h := c5_first_failure_short_circuit envC5 ["service", "access"] .unset []
      ["access"] "service"
      ⟨401, "Unauthorized", "Missing or invalid x-service-authorization header"⟩
      (by decide) (by decide) (by simp) (by decide)
    simpa using h

/-- Environment for the C7 theorems: a single registered type whose header
is absent. -/
def envC7 : HookEnv := {
  registry := [("access", { headerName := "Authorization", expiresIn := 900 })]
  headers := fun _ => none
  verify := fun _ _ => .error ⟨.invalidToken, "Invalid token"⟩
  debug := false }

/-- Environment for the C7 counterexample: the registered first type fails
before the unregistered name is reached. -/
def envC7x : HookEnv := {
  registry := [("access", { headerName := "Authorization", expiresIn := 900 })]
  headers := fun _ => none
  verify := fun _ _ => .error ⟨.invalidToken, "Invalid token"⟩
  debug := false }

/-- **C7** (counterexample).  The resolved list `["access", "zz"]` contains
the unregistered name `"zz"`, but the first type already fails (missing
header), so the hook rejects with the 401 Unauthorized client failure, not
with the 500 UnknownTokenType internal error the claim predicts for every
request whose resolved list contains an unregistered name. -/
theorem c7_unknown_type_counterexample :
    ("zz" ∈ resolveTypes ["access", "zz"] .unset) ∧
    (List.lookup "zz" envC7x.registry).isNone = true ∧
    (runHook envC7x ["access", "zz"] .unset).outcome
      = .reject ⟨401, "Unauthorized", "Missing or invalid authorization header"⟩ := by
  refine ⟨by decide, by decide, by decide⟩

/-- **C7** (amended).  When the first failing entry of the resolved list is
an unregistered type name (everything before it verifies), the hook rejects
with the 500 Internal Server Error UnknownTokenType reply; and every
rejection produced for a *registered* type (extraction failure, missing
token, verification failure) carries status 401 — so the misconfiguration
outcome is distinct from every client authentication failure. -/
theorem c7_unknown_type_internal_error (env : HookEnv) (required : List String)
    (route : RouteJwtTypes) (pre post : List String) (t : String)
    (hroute : route ≠ RouteJwtTypes.disabled)
    (hres : resolveTypes required route = pre ++ t :: post)
    (hpre : ∀ x ∈ pre, (evalType env x).isOk = true)
    (hunk : List.lookup t env.registry = none) :
    (runHook env required route).outcome
      = .reject ⟨500, "Internal Server Error", unknownTypeHookMsg env t⟩ ∧
    (∀ (u : String) (cfg : TokenTypeConfig) (rj : HookReject),
      List.lookup u env.registry = some cfg → evalType env u = .error rj →
        rj.status = 401) := by
  constructor
  · have hfail : evalType env t
        = .error ⟨500, "Internal Server Error", unknownTypeHookMsg env t⟩ := by
      unfold evalType; rw [hunk]
    rw [runHook_eq_hookLoop env required route pre post t hroute hres,
      hookLoop_first_failure env t post _ hfail pre [] [] hpre]
  · intro u cfg rj hreg he
    unfold evalType at he
    simp only [hreg] at he
    split at he
    · injection he with h'; subst h'; rfl
    · injection he with h'; subst h'; rfl
    · split at he
      · injection he with h'; subst h'; rfl
      · exact absurd he (by simp)

/-- **C7** witness: a resolved list starting with the unregistered `"zz"`
rejects with the 500 internal error, and the registered `"access"` type's
failure carries 401. -/
theorem c7_unknown_type_internal_error_witness :
    (runHook envC7 ["zz"] .unset).outcome
      = .reject ⟨500, "Internal Server Error", unknownTypeHookMsg envC7 "zz"⟩ ∧
    (evalType envC7 "access"
        = .error ⟨401, "Unauthorized", "Missing or invalid authorization header"⟩ →
      (401 : Nat) = 401) :=
  ⟨(c7_unknown_type_internal_error envC7 ["zz"] .unset [] [] "zz"
      (by decide) (by decide) (by simp) rfl).1,
    fun he => (c7_unknown_type_internal_error envC7 ["zz"] .unset [] [] "zz"
      (by decide) (by decide) (by simp) rfl).2 "access" _ _ rfl he⟩

/-- **C9** (confirmed).  When the hook rejects at a failing type preceded by
at least one successful type, the payload map has been created and holds
exactly the payloads accumulated over the successful prefix — nothing is
rolled back on rejection. -/
theorem c9_partial_payloads_on_rejection (env : HookEnv) (required : List String)
    (route : RouteJwtTypes) (pre post : List String) (t : String) (r : HookReject)
    (hroute : route ≠ RouteJwtTypes.disabled)
    (hres : resolveTypes required route = pre ++ t :: post)
    (hpre : ∀ x ∈ pre, (evalType env x).isOk = true)
    (hfail : evalType env t = .error r)
    (hne : pre ≠ []) :
    (runHook env required route).outcome = .reject r ∧
    (runHook env required route).payloads = some (accumPayloads env pre []) := by
  rw [runHook_eq_hookLoop env required route pre post t hroute hres,
    hookLoop_first_failure env t post r hfail pre [] [] hpre]
  exact ⟨rfl, rfl⟩

/-- Environment for the C9 witness: `"access"` verifies, `"service"` then
fails for a missing header. -/
def envC9 : HookEnv := {
  registry := [("access", { headerName := "Authorization", expiresIn := 900 }),
               ("service", { headerName := "X-Service-Authorization", expiresIn := 900 })]
  headers := fun h => if h = "authorization" then some (.str "Bearer tok1") else none
  verify := fun _ _ => .ok ⟨[("sub", "u")], some 99, none, none⟩
  debug := false }

/-- **C9** witness: rejecting at the second type leaves the first type's
verified payload in the created map. -/
theorem c9_partial_payloads_on_rejection_witness :
    (runHook envC9 ["access", "service"] .unset).payloads
      = some (accumPayloads envC9 ["access"] []) ∧
    accumPayloads envC9 ["access"] [] = [("access", ⟨[("sub", "u")], some 99, none, none⟩)] :=
  ⟨(c9_partial_payloads_on_rejection envC9 ["access", "service"] .unset ["access"] []
      "service" ⟨401, "Unauthorized", "Missing or invalid x-service-authorization header"⟩
      (by decide) (by decide) (by decide) (by decide) (by decide)).2,
    by decide⟩

/-! ## Lemmas for C8 (secret parsing) -/

/-- The first element surviving `dropWhile` fails the predicate. -/
lemma dropWhile_head_not (p : Char → Bool) (l : List Char) :
    ∀ x ∈ (l.dropWhile p).head?, p x = false := by
  induction l with
  | nil => intro x hx; simp at hx
  | cons a l ih =>
    intro x hx
    by_cases hp : p a
    · rw [List.dropWhile_cons_of_pos hp] at hx
      exact ih x hx
    · rw [List.dropWhile_cons_of_neg hp] at hx
      simp at hx
      rw [hx] at hp
      simpa using hp

/-- `dropWhile` is the identity on a list whose head fails the predicate. -/
lemma dropWhile_eq_self_of_head (p : Char → Bool) (l : List Char)
    (h : ∀ x ∈ l.head?, p x = false) : l.dropWhile p = l := by
  cases l with
  | nil => rfl
  | cons a l =>
    have := h a (by simp)
    exact List.dropWhile_cons_of_neg (by simp [this])

/-- Right-trimming twice is right-trimming once. -/
lemma rtrimChars_idem (l : List Char) : rtrimChars (rtrimChars l) = rtrimChars l := by
  induction l with
  | nil => rfl
  | cons a l ih =>
    by_cases hc : ((rtrimChars l).isEmpty && jsWhitespace a) = true
    · simp [rtrimChars, hc]
    · simp only [rtrimChars, if_neg hc]
      simp [rtrimChars, ih, hc]

/-- Right-trimming keeps the head (or empties the list). -/
lemma rtrimChars_head? (l : List Char) :
    rtrimChars l = [] ∨ (rtrimChars l).head? = l.head? := by
  cases l with
  | nil => exact Or.inl rfl
  | cons a l =>
    by_cases hc : (rtrimChars l).isEmpty && jsWhitespace a
    · exact Or.inl (by simp [rtrimChars, hc])
    · exact Or.inr (by simp [rtrimChars, hc])

/-- Trimming is idempotent. -/
lemma trimList_idem (l : List Char) : trimList (trimList l) = trimList l := by
  unfold trimList
  have hdrop : (rtrimChars (l.dropWhile jsWhitespace)).dropWhile jsWhitespace
      = rtrimChars (l.dropWhile jsWhitespace) := by
    rcases rtrimChars_head? (l.dropWhile jsWhitespace) with h | h
    · rw [h]; rfl
    · refine dropWhile_eq_self_of_head _ _ ?_
      intro x hx
      rw [h] at hx
      exact dropWhile_head_not jsWhitespace l x hx
  rw [hdrop, rtrimChars_idem]

/-- `String.mk` and `String.toList` are inverse on the character list. -/
lemma toList_mk (l : List Char) : (String.mk l).toList = l := rfl

/-- Trimming a trimmed character list's string is the identity. -/
lemma jsTrim_mk_trimList (l : List Char) : jsTrim (String.mk (trimList l)) = String.mk (trimList l) := by
  unfold jsTrim
  rw [toList_mk, trimList_idem]

/-- A successful `processPair` step preserves the map invariant: entries are
non-empty and trim-fixed. -/
lemma processPair_good (acc acc' : List (String × String)) (pair : String)
    (hacc : ∀ kv ∈ acc, kv.1 ≠ "" ∧ kv.2 ≠ "" ∧ jsTrim kv.1 = kv.1 ∧ jsTrim kv.2 = kv.2)
    (h : processPair acc pair = .ok acc') :
    ∀ kv ∈ acc', kv.1 ≠ "" ∧ kv.2 ≠ "" ∧ jsTrim kv.1 = kv.1 ∧ jsTrim kv.2 = kv.2 := by
  unfold processPair at h
  split at h
  · injection h with h'; subst h'; exact hacc
  · split at h
    · exact absurd h (by simp)
    · split at h
      · exact absurd h (by simp)
      · split at h
        · exact absurd h (by simp)
        · split at h
          · exact absurd h (by simp)
          · rename_i hk hs hdup
            injection h with h'
            subst h'
            intro kv hkv
            rcases List.mem_append.mp hkv with hkv | hkv
            · exact hacc kv hkv
            · simp only [List.mem_singleton] at hkv
              subst hkv
              refine ⟨hk, hs, ?_, ?_⟩
              · exact jsTrim_mk_trimList _
              · exact jsTrim_mk_trimList _

/-- The `parseJwtSecrets` loop preserves the map invariant. -/
lemma processPairs_good (l : List String) :
    ∀ acc m : List (String × String),
      (∀ kv ∈ acc, kv.1 ≠ "" ∧ kv.2 ≠ "" ∧ jsTrim kv.1 = kv.1 ∧ jsTrim kv.2 = kv.2) →
      processPairs acc l = .ok m →
      ∀ kv ∈ m, kv.1 ≠ "" ∧ kv.2 ≠ "" ∧ jsTrim kv.1 = kv.1 ∧ jsTrim kv.2 = kv.2 := by
  induction l with
  | nil =>
    intro acc m hacc h
    injection h with h'
    subst h'
    exact hacc
  | cons p rest ih =>
    intro acc m hacc h
    unfold processPairs at h
    cases hp : processPair acc p with
    | error e => rw [hp] at h; exact absurd h (by simp)
    | ok acc' =>
      rw [hp] at h
      exact ih acc' m (processPair_good acc acc' p hacc hp) h

/-- **C8** (confirmed).  `parseJwtSecrets` either throws or returns a
non-empty map whose key ids and secrets are non-empty and trim-fixed;
segments empty after trimming are skipped; a non-empty segment without `=`
throws; an empty key id or empty secret throws; a repeated key id throws
(the accumulated entry is never overwritten). -/
theorem c8_parse_jwt_secrets :
    (∀ (s : String) (m : List (String × String)), parseJwtSecrets s = .ok m →
      m ≠ [] ∧ ∀ kv ∈ m, kv.1 ≠ "" ∧ kv.2 ≠ "" ∧ jsTrim kv.1 = kv.1 ∧ jsTrim kv.2 = kv.2) ∧
    (∀ (acc : List (String × String)) (pair : String),
      trimList pair.toList = [] → processPair acc pair = .ok acc) ∧
    (∀ (acc : List (String × String)) (pair : String),
      trimList pair.toList ≠ [] → '=' ∉ trimList pair.toList →
      processPair acc pair
        = .error ("Invalid JWT secret format: \"" ++ pair ++ "\". Expected format: key=secret")) ∧
    (∀ (acc : List (String × String)) (pair : String),
      trimList pair.toList ≠ [] → '=' ∈ trimList pair.toList →
      pairKeyId pair = "" →
      processPair acc pair = .error ("Empty key ID in JWT secret pair: \"" ++ pair ++ "\"")) ∧
    (∀ (acc : List (String × String)) (pair : String),
      trimList pair.toList ≠ [] → '=' ∈ trimList pair.toList →
      pairKeyId pair ≠ "" → pairSecret pair = "" →
      processPair acc pair = .error ("Empty secret for key ID \"" ++ pairKeyId pair ++ "\"")) ∧
    (∀ (acc : List (String × String)) (pair : String) (v : String),
      trimList pair.toList ≠ [] → '=' ∈ trimList pair.toList →
      pairKeyId pair ≠ "" → pairSecret pair ≠ "" →
      List.lookup (pairKeyId pair) acc = some v → v ≠ "" →
      processPair acc pair
        = .error ("Duplicate key ID \"" ++ pairKeyId pair ++ "\" in JWT secrets")) := by
  refine ⟨?_, ?_, ?_, ?_, ?_, ?_⟩
  · intro s m hp
    unfold parseJwtSecrets at hp
    split at hp
    · exact absurd hp (by simp)
    · split at hp
      · exact absurd hp (by simp)
      · cases hpp : processPairs [] (jsSplit s '|') with
        | error e => rw [hpp] at hp; exact absurd hp (by simp)
        | ok secrets =>
          rw [hpp] at hp
          split at hp
          · rename_i heq
            exact absurd heq (by simp)
          · rename_i acc' heq
            injection heq with heqq
            subst heqq
            split at hp
            · exact absurd hp (by simp)
            · rename_i hne
              injection hp with h'
              subst h'
              refine ⟨?_, processPairs_good _ [] _ (by simp) hpp⟩
              intro hm
              rw [hm] at hne
              exact hne rfl
  · intro acc pair hemp
    unfold processPair
    rw [if_pos hemp]
  · intro acc pair hne hni
    unfold processPair
    rw [if_neg hne, if_pos hni]
  · intro acc pair hne hmem hk
    unfold processPair
    rw [if_neg hne, if_neg (fun hx => hx hmem), if_pos hk]
  · intro acc pair hne hmem hk hs
    unfold processPair
    rw [if_neg hne, if_neg (fun hx => hx hmem), if_neg hk, if_pos hs]
  · intro acc pair v hne hmem hk hs hdup hv
    unfold processPair
    rw [if_neg hne, if_neg (fun hx => hx hmem), if_neg hk, if_neg hs,
      if_pos (show (List.lookup (pairKeyId pair) acc).getD "" ≠ "" by rw [hdup]; simpa using hv)]

/-- **C8** witness: a concrete secrets string parses to a non-empty map of
trimmed non-empty entries. -/
theorem c8_parse_jwt_secrets_witness :
    parseJwtSecrets " k1 = s1 |k2=s2" = .ok [("k1", "s1"), ("k2", "s2")] ∧
    ([("k1", "s1"), ("k2", "s2")] : List (String × String)) ≠ [] ∧
    (∀ kv ∈ ([("k1", "s1"), ("k2", "s2")] : List (String × String)),
      kv.1 ≠ "" ∧ kv.2 ≠ "" ∧ jsTrim kv.1 = kv.1 ∧ jsTrim kv.2 = kv.2) :=
  ⟨by decide,
    (c8_parse_jwt_secrets.1 " k1 = s1 |k2=s2" [("k1", "s1"), ("k2", "s2")] (by decide)).1,
    (c8_parse_jwt_secrets.1 " k1 = s1 |k2=s2" [("k1", "s1"), ("k2", "s2")] (by decide)).2⟩

/-! ## Lemmas for C1 (round trip) -/

/-- The JS truthiness guard is idempotent. -/
lemma jsOptStr_idem (v : Option String) : jsOptStr (jsOptStr v) = jsOptStr v := by
  cases v with
  | none => rfl
  | some s =>
    by_cases hs : s = ""
    · simp [jsOptStr, hs]
    · simp [jsOptStr, hs]

/-- Looking up a key that the `typ`/`cty` filter never removes sees through
the filter. -/
lemma lookup_filter_typ_cty (k : String) (l : List (String × String))
    (hk1 : k ≠ "typ") (hk2 : k ≠ "cty") :
    List.lookup k (l.filter (fun kv => kv.1 ≠ "typ" ∧ kv.1 ≠ "cty")) = List.lookup k l := by
  induction l with
  | nil => rfl
  | cons kv rest ih =>
    obtain ⟨k', v'⟩ := kv
    by_cases hkk : k = k'
    · subst hkk
      rw [List.filter_cons_of_pos (by simp [hk1, hk2])]
      simp [List.lookup]
    · by_cases hfil : k' ≠ "typ" ∧ k' ≠ "cty"
      · rw [List.filter_cons_of_pos (by simpa using hfil)]
        simp only [List.lookup, beq_eq_false_iff_ne.mpr hkk]
        exact ih
      · rw [List.filter_cons_of_neg (by simpa using hfil)]
        rw [ih]
        simp only [List.lookup, beq_eq_false_iff_ne.mpr hkk]

/-- In a map with duplicate-free keys every entry is found by its key. -/
lemma lookup_self_of_nodup (l : List (String × String))
    (hnd : (l.map Prod.fst).Nodup) :
    ∀ kv ∈ l, List.lookup kv.1 l = some kv.2 := by
  induction l with
  | nil => intro kv hkv; simp at hkv
  | cons kv0 rest ih =>
    obtain ⟨k', v'⟩ := kv0
    intro kv hkv
    rcases List.mem_cons.mp hkv with rfl | hkv
    · simp [List.lookup]
    · have hk : kv.1 ≠ k' := by
        intro he
        have : kv.1 ∈ rest.map Prod.fst := List.mem_map_of_mem Prod.fst hkv
        rw [he] at this
        exact (List.nodup_cons.mp hnd).1 this
      simp only [List.lookup, beq_eq_false_iff_ne.mpr hk]
      exact ih (List.nodup_cons.mp hnd).2 kv hkv

/-- Custom header claims each present in the decoded header with the
expected value pass the extension-claim check. -/
lemma checkExtraClaims_none (h : JwtHeader) (l : List (String × String))
    (hok : ∀ kv ∈ l, kv.1 = "typ" ∨ kv.1 = "cty" ∨ headerField h kv.1 = some kv.2) :
    checkExtraClaims h l = none := by
  induction l with
  | nil => rfl
  | cons kv rest ih =>
    obtain ⟨k, v⟩ := kv
    have ihr := ih (fun kv hkv => hok kv (List.mem_cons_of_mem _ hkv))
    rcases hok (k, v) (by simp) with hkv | hkv | hkv
    · simp only at hkv
      subst hkv
      simpa [checkExtraClaims] using ihr
    · simp only at hkv
      subst hkv
      simpa [checkExtraClaims] using ihr
    · by_cases htc : k = "typ" ∨ k = "cty"
      · rcases htc with rfl | rfl <;> simpa [checkExtraClaims] using ihr
      · push_neg at htc
        simp only at hkv
        simpa [checkExtraClaims, htc.1, htc.2, hkv] using ihr

/-- A header built by `signToken` from a header-claims configuration with
duplicate-free custom keys passes the expected-header validation against
that same configuration. -/
lemma checkHeaderClaims_signed (eh : HeaderClaims) (alg : String) (kid : Option String)
    (hnd : (eh.extra.map Prod.fst).Nodup) :
    checkHeaderClaims
      ⟨alg, kid, eh.typ, eh.cty, eh.extra.filter (fun kv => kv.1 ≠ "typ" ∧ kv.1 ≠ "cty")⟩
      eh = none := by
  have hextra : checkExtraClaims
      ⟨alg, kid, eh.typ, eh.cty, eh.extra.filter (fun kv => kv.1 ≠ "typ" ∧ kv.1 ≠ "cty")⟩
      eh.extra = none := by
    refine checkExtraClaims_none _ _ ?_
    intro kv hkv
    by_cases htc : kv.1 = "typ" ∨ kv.1 = "cty"
    · rcases htc with h1 | h1
      · exact Or.inl h1
      · exact Or.inr (Or.inl h1)
    · push_neg at htc
      refine Or.inr (Or.inr ?_)
      show List.lookup kv.1 (eh.extra.filter _) = some kv.2
      rw [lookup_filter_typ_cty kv.1 eh.extra htc.1 htc.2]
      exact lookup_self_of_nodup eh.extra hnd kv hkv
  rcases ht : eh.typ with _ | e <;> rcases hc : eh.cty with _ | c <;>
    rw [ht, hc] at hextra <;>
    simpa [checkHeaderClaims, checkCtyClaim, ht, hc] using hextra

/-- Verifying a token signed with the same secret at the same instant with a
positive lifetime yields its payload. -/
lemma jwtVerifyModel_signToken (p : List (String × String)) (secret kid : String)
    (ein now : Nat) (opts : Option SignTokenOptions) (hexp : 0 < ein) :
    jwtVerifyModel (signToken p secret kid ein now opts) secret now
      = .ok (signToken p secret kid ein now opts).payload := by
  unfold jwtVerifyModel
  rw [if_neg (by simp [signToken])]
  have hpl : (signToken p secret kid ein now opts).payload.exp = some (now + ein) := by
    simp [signToken]
  rw [hpl]
  have hlt : ¬ (now + ein ≤ now) := by omega
  simp [hlt]

/-- Service used by the C1 counterexample: a registered type with an issuer
allow-list but no configured issuer. -/
def svcC1x : FastifyJwtService := {
  secrets := [("k1", "s1")]
  defaultKeyId := "k1"
  tokenTypes := [("access",
    { headerName := "Authorization", expiresIn := 900, allowedIss := ["issuer-a"] })]
  debug := false }

/-- **C1** (counterexample).  The type `access` is registered (its header
name and expiry are set, the default key id is present), and the payload
satisfies its (absent) schema — yet the round trip fails: the type declares
`allowedIss = ["issuer-a"]` but no issuer, so generation signs a token
without an `iss` claim and verification rejects it with MissingIssuer
instead of returning the payload plus standard claims. -/
theorem c1_round_trip_counterexample :
    (List.lookup svcC1x.defaultKeyId svcC1x.secrets).isSome = true ∧
    roundTripRun svcC1x "access" [("sub", "u1")] 1000
      = .error ⟨.missingIssuer, "Token missing issuer claim"⟩ := by
  refine ⟨by decide, by decide⟩

/-- The header built by `signToken` from explicit options, by computation
(the `sig` field is never forced). -/
lemma signToken_header (p : List (String × String)) (secret kid : String) (ein now : Nat)
    (sAlg sIss sAud : Option String) (hdrc : Option HeaderClaims) :
    (signToken p secret kid ein now (some ⟨sAlg, sIss, sAud, hdrc⟩)).header
      = ⟨(jsOptStr sAlg).getD "HS256", some kid, hdrc.bind (·.typ), hdrc.bind (·.cty),
          ((hdrc.map (·.extra)).getD []).filter (fun kv => kv.1 ≠ "typ" ∧ kv.1 ≠ "cty")⟩ := rfl

/-- The payload built by `signToken` from explicit options. -/
lemma signToken_payload (p : List (String × String)) (secret kid : String) (ein now : Nat)
    (sAlg sIss sAud : Option String) (hdrc : Option HeaderClaims) :
    (signToken p secret kid ein now (some ⟨sAlg, sIss, sAud, hdrc⟩)).payload
      = ⟨p, some (now + ein), jsOptStr sIss, jsOptStr sAud⟩ := rfl

/-- The expected-header validation accepts the header that `signToken`
builds from the same (duplicate-free) header-claims configuration. -/
lemma checkHeaderClaims_signed_opt (hdrc : Option HeaderClaims) (alg : String)
    (kid : Option String)
    (hnd : ∀ eh, hdrc = some eh → (eh.extra.map Prod.fst).Nodup) :
    (match hdrc with
     | some eh => checkHeaderClaims
         ⟨alg, kid, hdrc.bind (·.typ), hdrc.bind (·.cty),
           ((hdrc.map (·.extra)).getD []).filter (fun kv => kv.1 ≠ "typ" ∧ kv.1 ≠ "cty")⟩ eh
     | none => none) = none := by
  cases hdrc with
  | none => rfl
  | some eh =>
    show checkHeaderClaims
      ⟨alg, kid, eh.typ, eh.cty, eh.extra.filter (fun kv => kv.1 ≠ "typ" ∧ kv.1 ≠ "cty")⟩
      eh = none
    exact checkHeaderClaims_signed eh _ _ (hnd eh rfl)

/-- The decoded-token pipeline accepts a token freshly signed by the same
store under a self-consistent configuration. -/
lemma verifyDecoded_signToken (secrets : List (String × String)) (al : List String)
    (dbg : Bool) (p : List (String × String)) (secret dk : String) (ein now : Nat)
    (hdrc : Option HeaderClaims) (sAlg sIss sAud : Option String)
    (hdk : dk ≠ "") (hsec : List.lookup dk secrets = some secret) (hsne : secret ≠ "")
    (hexp : 0 < ein)
    (hiss : al ≠ [] → ∃ i, jsOptStr sIss = some i ∧ i ≠ "" ∧ i ∈ al)
    (hnd : ∀ eh, hdrc = some eh → (eh.extra.map Prod.fst).Nodup) :
    verifyDecoded
      (signToken p secret dk ein now (some ⟨sAlg, sIss, sAud, hdrc⟩)).header secrets
      ⟨al, dbg, hdrc⟩
      (fun s => jwtVerifyModel
        (signToken p secret dk ein now (some ⟨sAlg, sIss, sAud, hdrc⟩)) s now)
      = .ok ⟨p, some (now + ein), jsOptStr sIss, jsOptStr sAud⟩ := by
  unfold verifyDecoded
  rw [signToken_header]
  dsimp only
  rw [if_neg hdk, checkHeaderClaims_signed_opt hdrc _ _ hnd, hsec]
  dsimp only
  rw [if_neg hsne, jwtVerifyModel_signToken p secret dk ein now _ hexp,
    signToken_payload]
  dsimp only [mapJwtLibError]
  by_cases hale : al = []
  · subst hale
    rfl
  · obtain ⟨i, hi1, hi2, hi3⟩ := hiss hale
    rw [hi1]
    rw [if_pos (show (!al.isEmpty) = true by
      cases al with
      | nil => exact absurd rfl hale
      | cons a as => rfl)]
    dsimp only
    rw [if_neg hi2, if_pos hi3]

/-- **C1** (amended).  For every registered token type whose configuration
is self-consistent — the default key id is non-empty and maps to a non-empty
secret, the lifetime is positive, a non-empty issuer allow-list contains the
type's own (non-empty) issuer, the custom header-claim keys are
duplicate-free, and the payload schema (if any) accepts the decoded payload
including the standard claims — verifying the freshly generated token at the
same instant succeeds and returns the payload plus the standard claims
(expiry, and issuer/audience when configured). -/
theorem c1_round_trip (svc : FastifyJwtService) (typeName : String) (tt : TokenTypeConfig)
    (p : List (String × String)) (secret : String) (now : Nat)
    (hreg : List.lookup typeName svc.tokenTypes = some tt)
    (hdk : svc.defaultKeyId ≠ "")
    (hsec : List.lookup svc.defaultKeyId svc.secrets = some secret)
    (hsne : secret ≠ "")
    (hexp : 0 < tt.expiresIn)
    (hiss : tt.allowedIss ≠ [] → ∃ i, tt.iss = some i ∧ i ≠ "" ∧ i ∈ tt.allowedIss)
    (hnd : ∀ eh, tt.header = some eh → (eh.extra.map Prod.fst).Nodup)
    (hsch : ∀ sch, tt.payloadSchema = some sch →
      sch ⟨p, some (now + tt.expiresIn), jsOptStr tt.iss, jsOptStr tt.aud⟩ = true) :
    roundTripRun svc typeName p now
      = .ok ⟨p, some (now + tt.expiresIn), jsOptStr tt.iss, jsOptStr tt.aud⟩ := by
  have hgen : svc.generateToken typeName p now
      = .ok (signToken p secret svc.defaultKeyId tt.expiresIn now
          (some { algorithm := jsOptStr tt.algorithm, iss := jsOptStr tt.iss,
                  aud := jsOptStr tt.aud, header := tt.header })) := by
    unfold FastifyJwtService.generateToken
    simp only [hreg, hsec]
    rw [if_neg hsne]
  have hvd := verifyDecoded_signToken svc.secrets tt.allowedIss svc.debug p secret
    svc.defaultKeyId tt.expiresIn now tt.header (jsOptStr tt.algorithm) (jsOptStr tt.iss)
    (jsOptStr tt.aud) hdk hsec hsne hexp
    (fun hne => by
      obtain ⟨i, hi1, hi2, hi3⟩ := hiss hne
      exact ⟨i, by rw [jsOptStr_idem]; simp [jsOptStr, hi1, hi2], hi2, hi3⟩)
    hnd
  rw [jsOptStr_idem, jsOptStr_idem] at hvd
  unfold roundTripRun
  rw [hgen]
  unfold FastifyJwtService.verifyToken
  simp only [hreg, hvd]
  cases hps : tt.payloadSchema with
  | none => simp
  | some sch =>
    simp only []
    rw [if_pos (hsch sch hps)]

/-- Configuration for the C1 witness: issuer-gated, with custom header
claims. -/
def cfgC1w : TokenTypeConfig := {
  headerName := "Authorization"
  expiresIn := 900
  iss := some "svc-a"
  allowedIss := ["svc-a"]
  header := some ⟨some "JWT", none, [("env", "prod")]⟩ }

/-- Service for the C1 witness. -/
def svcC1w : FastifyJwtService := {
  secrets := [("k1", "s1")]
  defaultKeyId := "k1"
  tokenTypes := [("access", cfgC1w)]
  debug := false }

/-- **C1** witness: the round trip on a concrete self-consistent service
returns exactly the payload plus expiry and issuer. -/
theorem c1_round_trip_witness :
    roundTripRun svcC1w "access" [("sub", "u1")] 1000
      = .ok ⟨[("sub", "u1")], some (1000 + cfgC1w.expiresIn), jsOptStr cfgC1w.iss,
          jsOptStr cfgC1w.aud⟩ ∧
    (⟨[("sub", "u1")], some (1000 + cfgC1w.expiresIn), jsOptStr cfgC1w.iss,
        jsOptStr cfgC1w.aud⟩ : JwtPayload)
      = ⟨[("sub", "u1")], some 1900, some "svc-a", none⟩ :=
  ⟨c1_round_trip svcC1w "access" cfgC1w [("sub", "u1")] "s1" 1000
      rfl (by decide) rfl (by decide) (by decide)
      (fun _ => ⟨"svc-a", rfl, by decide, by simp [cfgC1w]⟩)
      (fun eh heh => by
        injection heh with h'
        rw [← h']
        decide)
      (fun sch h => by simp [cfgC1w] at h),
    by decide⟩

end Fastify
